import Mathlib

/-!
Verification of the ChronosInventory process-lifecycle supervisor
(`src/frontend/src-tauri/src/main.rs`) against its specification.

The Rust source is shallowly embedded: time is measured in whole
milliseconds (the unit the source works in), the network / filesystem /
OS are abstracted as explicit oracle functions passed to each embedded
operation, and each async loop becomes a fuel-based recursion whose fuel
is proved sufficient (the `Option` result is always `some`).
-/

namespace ChronosInventory

/-! ### HealthProber: `wait_for_health` (main.rs lines 48-71)

The Rust loop issues a GET, returns `true` on a 2xx status, returns
`false` when the cumulative slept time has reached the timeout, and
otherwise sleeps `delay` and grows `delay` by
`min((delay_ms as f32 * 1.5) as u64, 2000)`.  For `delay ≤ 2000` the
`f32` product `3*delay/2` is exact and the `as u64` cast truncates, so
the update is exactly `min (3 * delay / 2) 2000` on natural-number
milliseconds.  The HTTP world is abstracted as `resp : Nat → Option Nat`
giving, for each attempt index, either a status code or `none` for a
network error (`reqwest` `Err`). -/

/-- `reqwest::StatusCode::is_success`: status in `200..=299`. -/
def statusIsSuccess (s : Nat) : Bool := decide (200 ≤ s) && decide (s < 300)

/-- The probe outcome test of the source: `Ok(resp)` whose status
`is_success()`.  A network error (`none`) is not a success. -/
def respOk : Option Nat → Bool
  | some s => statusIsSuccess s
  | none => false

/-- Delay update of the source:
`min(Duration::from_millis((delay.as_millis() as f32 * 1.5) as u64), 2s)`
in whole milliseconds (exact for the reachable delays, all `≤ 2000`). -/
def nextDelay (d : Nat) : Nat := min (3 * d / 2) 2000

/-- Result of one run of the health loop: the boolean returned, plus the
cumulative waited milliseconds at each attempt, in order. -/
structure HealthTrace where
  result : Bool
  attempts : List Nat
deriving DecidableEq

/-- The loop body of `wait_for_health`, with explicit `delay`/`elapsed`
state and a fuel argument (the loop in the source terminates because
`elapsed` grows by at least 300 each iteration; fuel is an embedding
artifact, proved sufficient in `healthLoop_isSome`). -/
def healthLoop (resp : Nat → Option Nat) (timeout : Nat) :
    Nat → Nat → Nat → Nat → Option HealthTrace
  | fuel, attempt, delay, elapsed =>
    if respOk (resp attempt) then some ⟨true, [elapsed]⟩
    else if timeout ≤ elapsed then some ⟨false, [elapsed]⟩
    else
      match fuel with
      | 0 => none
      | f + 1 =>
        match healthLoop resp timeout f (attempt + 1) (nextDelay delay) (elapsed + delay) with
        | some tr => some ⟨tr.result, elapsed :: tr.attempts⟩
        | none => none

/-- `wait_for_health(url, timeout)`: initial delay 300 ms, elapsed 0. -/
def wait_for_health (resp : Nat → Option Nat) (timeout : Nat) : Option HealthTrace :=
  healthLoop resp timeout (timeout / 300 + 1) 0 300 0

/-- Cumulative waited time at the `i`-th attempt, starting from delay
state `d` and already-elapsed `e`. -/
def elapsedAt : Nat → Nat → Nat → Nat
  | _, e, 0 => e
  | d, e, i + 1 => elapsedAt (nextDelay d) (e + d) i

/-- The sequence of sleeps of `wait_for_health`: 300 ms, then repeatedly
`nextDelay`. -/
def delaySeq : Nat → Nat
  | 0 => 300
  | i + 1 => nextDelay (delaySeq i)

lemma nextDelay_ge_300 {d : Nat} (h : 300 ≤ d) : 300 ≤ nextDelay d := by
  unfold nextDelay; omega

lemma nextDelay_le_2000 (d : Nat) : nextDelay d ≤ 2000 := by
  unfold nextDelay; omega

lemma le_nextDelay {d : Nat} (h : d ≤ 2000) : d ≤ nextDelay d := by
  unfold nextDelay; omega

lemma healthLoop_isSome (resp : Nat → Option Nat) (timeout : Nat) :
    ∀ fuel attempt delay elapsed, 300 ≤ delay → timeout < elapsed + 300 * fuel →
      (healthLoop resp timeout fuel attempt delay elapsed).isSome := by
  intro fuel
  induction fuel with
  | zero =>
    intro attempt delay elapsed _ hto
    rw [healthLoop]
    by_cases hs : respOk (resp attempt) <;> simp [hs]
    omega
  | succ f ih =>
    intro attempt delay elapsed hd hto
    rw [healthLoop]
    by_cases hs : respOk (resp attempt)
    · simp [hs]
    · by_cases he : timeout ≤ elapsed
      · simp [hs, he]
      · have hrec := ih (attempt + 1) (nextDelay delay) (elapsed + delay)
          (nextDelay_ge_300 hd) (by omega)
        simp only [hs, he, if_false, if_neg, Bool.false_eq_true]
        cases hcall : healthLoop resp timeout f (attempt + 1) (nextDelay delay) (elapsed + delay) with
        | none => rw [hcall] at hrec; simp at hrec
        | some tr => simp [hs, he, hcall]

lemma range_map_elapsedAt (d e n : Nat) :
    (List.range (n + 1)).map (fun i => elapsedAt d e i) =
      e :: (List.range n).map (fun i => elapsedAt (nextDelay d) (e + d) i) := by
  rw [List.range_succ_eq_map, List.map_cons, List.map_map]
  rfl

/-- Full characterization of a completed health-loop run: at least one
attempt is made; the attempt times follow `elapsedAt`; every non-final
attempt failed and happened strictly before the timeout; the result is
the outcome of the final attempt; and a `false` result implies the final
attempt happened at cumulative waited time `≥ timeout`. -/
lemma healthLoop_spec (resp : Nat → Option Nat) (timeout : Nat) :
    ∀ fuel attempt delay elapsed tr,
      healthLoop resp timeout fuel attempt delay elapsed = some tr →
      0 < tr.attempts.length ∧
      tr.attempts = (List.range tr.attempts.length).map (fun i => elapsedAt delay elapsed i) ∧
      (∀ i, i + 1 < tr.attempts.length →
        respOk (resp (attempt + i)) = false ∧ elapsedAt delay elapsed i < timeout) ∧
      tr.result = respOk (resp (attempt + (tr.attempts.length - 1))) ∧
      (tr.result = false → timeout ≤ elapsedAt delay elapsed (tr.attempts.length - 1)) := by
  intro fuel
  induction fuel with
  | zero =>
    intro attempt delay elapsed tr h
    rw [healthLoop] at h
    by_cases hs : respOk (resp attempt) = true
    · rw [if_pos hs] at h
      obtain rfl := Option.some.inj h
      refine ⟨by simp, by rfl, ?_, by simpa using hs.symm, by simp⟩
      intro i hi; simp at hi
    · rw [if_neg hs] at h
      by_cases he : timeout ≤ elapsed
      · rw [if_pos he] at h
        obtain rfl := Option.some.inj h
        refine ⟨by simp, by rfl, ?_, ?_, ?_⟩
        · intro i hi; simp at hi
        · simp only [Bool.not_eq_true] at hs
          simpa using hs.symm
        · intro _; simpa [elapsedAt] using he
      · rw [if_neg he] at h
        exact absurd h (by simp)
  | succ f ih =>
    intro attempt delay elapsed tr h
    rw [healthLoop] at h
    by_cases hs : respOk (resp attempt) = true
    · rw [if_pos hs] at h
      obtain rfl := Option.some.inj h
      refine ⟨by simp, by rfl, ?_, by simpa using hs.symm, by simp⟩
      intro i hi; simp at hi
    · rw [if_neg hs] at h
      by_cases he : timeout ≤ elapsed
      · rw [if_pos he] at h
        obtain rfl := Option.some.inj h
        refine ⟨by simp, by rfl, ?_, ?_, ?_⟩
        · intro i hi; simp at hi
        · simp only [Bool.not_eq_true] at hs
          simpa using hs.symm
        · intro _; simpa [elapsedAt] using he
      · rw [if_neg he] at h
        cases hcall : healthLoop resp timeout f (attempt + 1) (nextDelay delay) (elapsed + delay) with
        | none => rw [hcall] at h; exact absurd h (by simp)
        | some tr' =>
          rw [hcall] at h
          obtain rfl := Option.some.inj h
          obtain ⟨ih1, ih2, ih3, ih4, ih5⟩ :=
            ih (attempt + 1) (nextDelay delay) (elapsed + delay) tr' hcall
          have hlen : (⟨tr'.result, elapsed :: tr'.attempts⟩ : HealthTrace).attempts.length
              = tr'.attempts.length + 1 := by simp
          refine ⟨by simp, ?_, ?_, ?_, ?_⟩
          · simp only [hlen]
            rw [range_map_elapsedAt]
            simp only [List.cons.injEq, true_and]
            exact ih2
          · intro i hi
            simp only [hlen] at hi
            cases i with
            | zero =>
              refine ⟨by simpa using hs, ?_⟩
              simpa [elapsedAt] using (by omega : elapsed < timeout)
            | succ j =>
              have hj : j + 1 < tr'.attempts.length := by omega
              obtain ⟨hr, help⟩ := ih3 j hj
              refine ⟨?_, ?_⟩
              · have harg : attempt + (j + 1) = attempt + 1 + j := by omega
                rw [harg]; exact hr
              · simpa [elapsedAt] using help
          · simp only [hlen]
            have hn : tr'.attempts.length + 1 - 1 = (tr'.attempts.length - 1) + 1 := by omega
            have harg : attempt + ((tr'.attempts.length - 1) + 1)
                = attempt + 1 + (tr'.attempts.length - 1) := by omega
            simp only [hn, harg]
            exact ih4
          · intro hres
            simp only [hlen]
            have hn : tr'.attempts.length + 1 - 1 = (tr'.attempts.length - 1) + 1 := by omega
            rw [hn]
            show timeout ≤ elapsedAt (nextDelay delay) (elapsed + delay) (tr'.attempts.length - 1)
            exact ih5 (by simpa using hres)

/-- The loop's behavior depends on the responses only through their
success bit: a network error is interchangeable with any non-2xx
status. -/
lemma healthLoop_congr (resp resp' : Nat → Option Nat) (timeout : Nat)
    (h : ∀ k, respOk (resp k) = respOk (resp' k)) :
    ∀ fuel attempt delay elapsed,
      healthLoop resp timeout fuel attempt delay elapsed =
        healthLoop resp' timeout fuel attempt delay elapsed := by
  intro fuel
  induction fuel with
  | zero =>
    intro attempt delay elapsed
    rw [healthLoop, healthLoop, h attempt]
  | succ f ih =>
    intro attempt delay elapsed
    rw [healthLoop, healthLoop, h attempt, ih (attempt + 1) (nextDelay delay) (elapsed + delay)]

/-- The delay slept before the `i`-th backoff step, starting from delay
state `d`. -/
def delayFrom : Nat → Nat → Nat
  | d, 0 => d
  | d, i + 1 => delayFrom (nextDelay d) i

lemma delayFrom_succ (i : Nat) : ∀ d : Nat, delayFrom d (i + 1) = nextDelay (delayFrom d i) := by
  induction i with
  | zero => intro d; rfl
  | succ j ih =>
    intro d
    show delayFrom (nextDelay d) (j + 1) = nextDelay (delayFrom (nextDelay d) j)
    exact ih (nextDelay d)

lemma delaySeq_eq_delayFrom (i : Nat) : delaySeq i = delayFrom 300 i := by
  induction i with
  | zero => rfl
  | succ j ih => rw [delaySeq, ih, delayFrom_succ]

lemma elapsedAt_add_one (i : Nat) : ∀ d e : Nat,
    elapsedAt d e (i + 1) = elapsedAt d e i + delayFrom d i := by
  induction i with
  | zero => intro d e; simp [elapsedAt, delayFrom]
  | succ j ih =>
    intro d e
    show elapsedAt (nextDelay d) (e + d) (j + 1) = elapsedAt d e (j + 1) + delayFrom d (j + 1)
    rw [ih (nextDelay d) (e + d)]
    rfl

lemma delaySeq_le_2000 (i : Nat) : delaySeq i ≤ 2000 := by
  cases i with
  | zero => simp [delaySeq]
  | succ j => exact nextDelay_le_2000 (delaySeq j)

lemma delaySeq_mono {i j : Nat} (h : i ≤ j) : delaySeq i ≤ delaySeq j := by
  induction j with
  | zero =>
    have hi : i = 0 := by omega
    rw [hi]
  | succ k ih =>
    rcases Nat.lt_or_ge i (k + 1) with hk | hk
    · exact le_trans (ih (by omega)) (le_nextDelay (delaySeq_le_2000 k))
    · have : i = k + 1 := by omega
      subst this; exact le_refl _

lemma delaySeq_stable {i : Nat} (h : 5 ≤ i) : delaySeq i = 2000 := by
  induction i with
  | zero => omega
  | succ k ih =>
    rcases Nat.lt_or_ge k 5 with hk | hk
    · have : k + 1 = 5 := by omega
      rw [this]; rfl
    · rw [delaySeq, ih hk]; rfl

/-- C1 counterexample.  The claim says the probe returns `false` once the
cumulative waited time reaches or exceeds the timeout, without making a
further probe attempt after that point.  With every response a network
error and `timeout = 400` ms, the run makes attempts at cumulative
waited times 0, 300 and 750 ms: a third attempt is issued at 750 ms,
after the cumulative wait passed the 400 ms timeout.  Moreover, if that
late attempt gets a 200 response the function returns `true`, not
`false`, even though the cumulative wait already exceeded the timeout. -/
theorem wait_for_health_extra_attempt_cex :
    wait_for_health (fun _ => none) 400 = some ⟨false, [0, 300, 750]⟩ ∧
    wait_for_health (fun k => if k == 2 then some 200 else none) 400 =
      some ⟨true, [0, 300, 750]⟩ := by
  exact ⟨rfl, rfl⟩

/-- C1 (amended): `wait_for_health` always terminates with a trace in
which (a) the attempt times follow the backoff schedule from 0 ms;
(b) the result is the outcome of the final attempt, so the first
successful attempt returns `true` (all earlier attempts failed);
(c) every non-final attempt happened strictly before the cumulative
waited time reached `timeout`; (d) a `false` return means the final
attempt — the single attempt made at or after the timeout point —
also failed; and (e) network errors are interchangeable with non-2xx
responses: the run depends on responses only through their success
bit. -/
theorem wait_for_health_spec (resp : Nat → Option Nat) (timeout : Nat) :
    ∃ tr, wait_for_health resp timeout = some tr ∧
      0 < tr.attempts.length ∧
      tr.attempts = (List.range tr.attempts.length).map (fun i => elapsedAt 300 0 i) ∧
      tr.result = respOk (resp (tr.attempts.length - 1)) ∧
      (∀ i, i + 1 < tr.attempts.length →
        respOk (resp i) = false ∧ elapsedAt 300 0 i < timeout) ∧
      (tr.result = false → timeout ≤ elapsedAt 300 0 (tr.attempts.length - 1)) ∧
      (∀ resp2, (∀ k, respOk (resp k) = respOk (resp2 k)) →
        wait_for_health resp2 timeout = some tr) := by
  have hsome := healthLoop_isSome resp timeout (timeout / 300 + 1) 0 300 0
    (le_refl 300) (by omega)
  obtain ⟨tr, htr⟩ := Option.isSome_iff_exists.mp hsome
  obtain ⟨h1, h2, h3, h4, h5⟩ := healthLoop_spec resp timeout (timeout / 300 + 1) 0 300 0 tr htr
  refine ⟨tr, htr, h1, h2, by simpa using h4, by simpa using h3, h5, ?_⟩
  intro resp2 hcongr
  rw [wait_for_health, ← healthLoop_congr resp resp2 timeout hcongr]
  exact htr

/-- Witness for C1's amended theorem: at `timeout = 400` with all
responses failing, the `false` return implies the final (third) attempt
happened at cumulative waited time `≥ 400`. -/
theorem wait_for_health_spec_witness :
    (400 : Nat) ≤ elapsedAt 300 0 2 ∧ respOk none = false := by
  obtain ⟨tr, htr, h1, h2, h3, h4, h5, h6⟩ := wait_for_health_spec (fun _ => none) 400
  have hval : wait_for_health (fun _ => none) 400 = some ⟨false, [0, 300, 750]⟩ := rfl
  rw [hval] at htr
  obtain rfl := (Option.some.inj htr)
  exact ⟨h5 rfl, rfl⟩

/-- Modelled from the claim as stated, for comparison with the code's
delay sequence: the claim says the delay "is multiplied by 1.5 after
each failed attempt" and "capped at 2 seconds", i.e. an exact rational
recurrence with no rounding. -/
def claimDelaySeq : Nat → ℚ
  | 0 => 300
  | i + 1 => min (claimDelaySeq i * (3 / 2)) 2000

/-- C5 counterexample.  The code computes the next delay as
`(delay_ms as f32 * 1.5) as u64`, truncating to whole milliseconds:
the fourth delay is `⌊675 × 1.5⌋ = 1012` ms, while multiplying exactly
by 1.5 would give 1012.5 ms.  The claimed exact-1.5 sequence therefore
differs from the code's sequence at index 3. -/
theorem delaySeq_truncation_cex :
    ((delaySeq 3 : Nat) : ℚ) ≠ claimDelaySeq 3 ∧
    delaySeq 3 = 1012 ∧ claimDelaySeq 3 = 2025 / 2 := by
  have h3 : delaySeq 3 = 1012 := rfl
  have hc : claimDelaySeq 3 = 2025 / 2 := by
    have h0 : claimDelaySeq 0 = 300 := rfl
    have h1 : claimDelaySeq 1 = 450 := by
      rw [claimDelaySeq, h0, min_def]; norm_num
    have h2 : claimDelaySeq 2 = 675 := by
      rw [claimDelaySeq, h1, min_def]; norm_num
    rw [claimDelaySeq, h2, min_def]; norm_num
  refine ⟨?_, h3, hc⟩
  rw [h3, hc]; norm_num

/-- C5 (amended): the inter-attempt delays of `wait_for_health` start at
300 ms; after each failed attempt the delay is multiplied by 1.5 with
the result truncated to a whole number of milliseconds
(`min (3*d/2) 2000`), capped at 2000 ms; the sequence is non-decreasing,
never exceeds 2000 ms, reaches 2000 ms at the sixth delay and stays
there.  Each run's attempt times advance exactly by this sequence. -/
theorem delaySeq_spec (resp : Nat → Option Nat) (timeout : Nat) :
    delaySeq 0 = 300 ∧
    (∀ i, delaySeq (i + 1) = min (3 * delaySeq i / 2) 2000) ∧
    (∀ i, delaySeq i ≤ 2000) ∧
    (∀ i j, i ≤ j → delaySeq i ≤ delaySeq j) ∧
    delaySeq 5 = 2000 ∧
    (∀ i, 5 ≤ i → delaySeq i = 2000) ∧
    ∃ tr, wait_for_health resp timeout = some tr ∧
      ∀ i, i + 1 < tr.attempts.length →
        tr.attempts.get? (i + 1) = some (elapsedAt 300 0 i + delaySeq i) := by
  have hsome := healthLoop_isSome resp timeout (timeout / 300 + 1) 0 300 0
    (le_refl 300) (by omega)
  obtain ⟨tr, htr⟩ := Option.isSome_iff_exists.mp hsome
  obtain ⟨h1, h2, h3, h4, h5⟩ := healthLoop_spec resp timeout (timeout / 300 + 1) 0 300 0 tr htr
  refine ⟨rfl, fun i => rfl, delaySeq_le_2000, fun i j h => delaySeq_mono h, rfl,
    fun i h => delaySeq_stable h, tr, htr, ?_⟩
  intro i hi
  rw [h2]
  have hlt : i + 1 < tr.attempts.length := by omega
  simp only [List.get?_map, List.get?_range hlt, Option.map_some']
  rw [elapsedAt_add_one, delaySeq_eq_delayFrom]

/-- Witness for C5's amended theorem: monotonicity and the 2-second
plateau at concrete indices, plus the second attempt of a concrete run
happening exactly `delaySeq 0 = 300` ms after the first. -/
theorem delaySeq_spec_witness :
    delaySeq 2 ≤ delaySeq 5 ∧ delaySeq 7 = 2000 ∧
    ∃ tr, wait_for_health (fun _ => none) 400 = some tr ∧
      tr.attempts.get? 1 = some (elapsedAt 300 0 0 + delaySeq 0) := by
  obtain ⟨_, _, _, hmono, _, hstay, tr, htr, hget⟩ := delaySeq_spec (fun _ => none) 400
  have hval : wait_for_health (fun _ => none) 400 = some ⟨false, [0, 300, 750]⟩ := rfl
  rw [hval] at htr
  obtain rfl := (Option.some.inj htr)
  exact ⟨hmono 2 5 (by omega), hstay 7 (by omega), _, hval, hget 0 (by norm_num)⟩

/-! ### ShutdownEscalator: `wait_backend_port_release` (main.rs lines 157-166)

The Rust loop checks `started.elapsed() < timeout`, returns `true` as
soon as `TcpListener::bind(("127.0.0.1", 8000))` succeeds, sleeps 120 ms
between polls, and after the loop performs one final bind check whose
result it returns.  The OS is abstracted as `free : Nat → Bool` giving
the outcome of the bind attempt at each poll index; poll `k` happens at
idealized elapsed time `120*k` ms. -/

/-- The polling loop of `wait_backend_port_release`, with a fuel
argument (an embedding artifact: the loop terminates after
`⌈timeout/120⌉` sleeps; fuel sufficiency is `portLoop_isSome`).
Returns the boolean result and the total number of bind checks made. -/
def portLoop (free : Nat → Bool) (timeout : Nat) : Nat → Nat → Option (Bool × Nat)
  | fuel, k =>
    if 120 * k < timeout then
      if free k then some (true, k + 1)
      else
        match fuel with
        | 0 => none
        | f + 1 => portLoop free timeout f (k + 1)
    else some (free k, k + 1)

/-- `wait_backend_port_release(timeout)` on the abstracted OS. -/
def wait_backend_port_release (free : Nat → Bool) (timeout : Nat) : Option (Bool × Nat) :=
  portLoop free timeout (timeout / 120 + 1) 0

lemma portLoop_isSome (free : Nat → Bool) (timeout : Nat) :
    ∀ fuel k, timeout ≤ 120 * (k + fuel) → (portLoop free timeout fuel k).isSome := by
  intro fuel
  induction fuel with
  | zero =>
    intro k hto
    rw [portLoop]
    have h120 : ¬ (120 * k < timeout) := by omega
    rw [if_neg h120]
    rfl
  | succ f ih =>
    intro k hto
    rw [portLoop]
    by_cases h120 : 120 * k < timeout
    · rw [if_pos h120]
      by_cases hf : free k = true
      · rw [if_pos hf]; rfl
      · rw [if_neg hf]
        exact ih (k + 1) (by omega)
    · rw [if_neg h120]; rfl

/-- Characterization of a completed port-release wait started at poll
index `k`: at least one poll is made; every non-final poll was an
in-loop failure (before the timeout, bind failed); the result is the
final poll's outcome; and a final poll made before the timeout elapsed
can only be a success. -/
lemma portLoop_spec (free : Nat → Bool) (timeout : Nat) :
    ∀ fuel k r n, portLoop free timeout fuel k = some (r, n) →
      k < n ∧
      (∀ j, k ≤ j → j + 1 < n → 120 * j < timeout ∧ free j = false) ∧
      r = free (n - 1) ∧
      (120 * (n - 1) < timeout → free (n - 1) = true) := by
  intro fuel
  induction fuel with
  | zero =>
    intro k r n h
    rw [portLoop] at h
    by_cases h120 : 120 * k < timeout
    · rw [if_pos h120] at h
      by_cases hf : free k = true
      · rw [if_pos hf] at h
        obtain ⟨rfl, rfl⟩ := Prod.mk.injEq .. ▸ Option.some.inj h
        refine ⟨by omega, ?_, by simpa using hf.symm, fun _ => by simpa using hf⟩
        intro j hj hj2; omega
      · rw [if_neg hf] at h
        exact absurd h (by simp)
    · rw [if_neg h120] at h
      obtain ⟨rfl, rfl⟩ := Prod.mk.injEq .. ▸ Option.some.inj h
      refine ⟨by omega, ?_, by simp, fun hc => absurd hc (by simpa using h120)⟩
      intro j hj hj2; omega
  | succ f ih =>
    intro k r n h
    rw [portLoop] at h
    by_cases h120 : 120 * k < timeout
    · rw [if_pos h120] at h
      by_cases hf : free k = true
      · rw [if_pos hf] at h
        obtain ⟨rfl, rfl⟩ := Prod.mk.injEq .. ▸ Option.some.inj h
        refine ⟨by omega, ?_, by simpa using hf.symm, fun _ => by simpa using hf⟩
        intro j hj hj2; omega
      · rw [if_neg hf] at h
        obtain ⟨ih1, ih2, ih3, ih4⟩ := ih (k + 1) r n h
        refine ⟨by omega, ?_, ih3, ih4⟩
        intro j hj hj2
        rcases Nat.eq_or_lt_of_le hj with rfl | hlt
        · exact ⟨h120, by simpa using hf⟩
        · exact ih2 j (by omega) hj2
    · rw [if_neg h120] at h
      obtain ⟨rfl, rfl⟩ := Prod.mk.injEq .. ▸ Option.some.inj h
      refine ⟨by omega, ?_, by simp, fun hc => absurd hc (by simpa using h120)⟩
      intro j hj hj2; omega

/-- C6: `wait_backend_port_release` polls the port on a 120 ms cadence;
it returns `true` as soon as a bind succeeds at any poll made before the
timeout elapses (the first such poll ends the run, with no further bind
checks); every non-final poll happens before the timeout and fails; and
once the timeout elapses (when no earlier bind succeeded) it performs
exactly one final bind check — at the first poll index at or past the
timeout — and returns that check's result regardless of outcome. -/
theorem wait_backend_port_release_spec (free : Nat → Bool) (timeout : Nat) :
    ∃ r n, wait_backend_port_release free timeout = some (r, n) ∧
      0 < n ∧
      (∀ j, j + 1 < n → 120 * j < timeout ∧ free j = false) ∧
      r = free (n - 1) ∧
      (∀ j0, 120 * j0 < timeout → free j0 = true → (∀ j, j < j0 → free j = false) →
        r = true ∧ n = j0 + 1) ∧
      ((∀ j, 120 * j < timeout → free j = false) →
        timeout ≤ 120 * (n - 1) ∧ ∀ m, timeout ≤ 120 * m → n - 1 ≤ m) := by
  have hsome := portLoop_isSome free timeout (timeout / 120 + 1) 0 (by omega)
  obtain ⟨⟨r, n⟩, heq⟩ := Option.isSome_iff_exists.mp hsome
  obtain ⟨h1, h2, h3, h4⟩ := portLoop_spec free timeout (timeout / 120 + 1) 0 r n heq
  have h2z : ∀ j, j + 1 < n → 120 * j < timeout ∧ free j = false :=
    fun j hj => h2 j (Nat.zero_le j) hj
  refine ⟨r, n, heq, h1, h2z, h3, ?_, ?_⟩
  · intro j0 hto hfree hbefore
    have hn : n = j0 + 1 := by
      rcases Nat.lt_trichotomy n (j0 + 1) with hlt | heqn | hgt
      · exfalso
        have hfin : n - 1 < j0 := by omega
        have hr : free (n - 1) = false := hbefore (n - 1) hfin
        have : 120 * (n - 1) < timeout := by
          have : 120 * (n - 1) < 120 * j0 := by omega
          omega
        exact absurd (h4 this) (by simp [hr])
      · exact heqn
      · exfalso
        have := (h2z j0 (by omega)).2
        simp [hfree] at this
    refine ⟨?_, hn⟩
    rw [h3, hn]
    simpa using hfree
  · intro hall
    have hfin : timeout ≤ 120 * (n - 1) := by
      by_contra hc
      push_neg at hc
      have := hall (n - 1) hc
      exact absurd (h4 hc) (by simp [this])
    refine ⟨hfin, ?_⟩
    intro m hm
    by_contra hc
    push_neg at hc
    have hm1 : m + 1 < n := by omega
    have := (h2z m hm1).1
    omega

/-- Witness for C6: with the port becoming free at the third poll
(index 2, at 240 ms) and `timeout = 600` ms, the wait returns `true`
after exactly three bind checks. -/
theorem wait_backend_port_release_spec_witness :
    ∃ r n, wait_backend_port_release (fun k => decide (2 ≤ k)) 600 = some (r, n) ∧
      r = true ∧ n = 3 := by
  obtain ⟨r, n, heq, _, _, _, h5, _⟩ :=
    wait_backend_port_release_spec (fun k => decide (2 ≤ k)) 600
  have hbefore : ∀ j, j < 2 → (fun k => decide (2 ≤ k)) j = false := by
    intro j hj
    simp only [decide_eq_false_iff_not]
    omega
  obtain ⟨hr, hn⟩ := h5 2 (by omega) (by decide) hbefore
  exact ⟨r, n, heq, hr, hn⟩

/-! ### ProcessSupervisor: `stop_backend` (main.rs lines 141-151)

`stop_backend` takes the handle out of the `BackendState` slot (under
the mutex); if one was present it calls `kill()` and logs success or
failure; otherwise it logs that the backend was already stopped.  The
function returns `()` — it has no error channel.  The embedding returns
the new slot contents, the log lines written, and the list of handles a
kill was requested for; `killOk` abstracts whether the OS kill call
succeeded (its error text is abstracted away from the failure log
line). -/

/-- A spawned worker handle (`tauri::api::process::CommandChild`). -/
structure CommandChild where
  pid : Nat
deriving DecidableEq

/-- `stop_backend(app, reason)`, parameterized by the slot contents and
the OS kill outcome. -/
def stop_backend (slot : Option CommandChild) (killOk : Bool) (reason : String) :
    Option CommandChild × List String × List CommandChild :=
  match slot with
  | some child =>
      (none,
       [if killOk then "backend finalizado (" ++ reason ++ ")"
        else "falha ao finalizar backend (" ++ reason ++ ")"],
       [child])
  | none => (none, ["backend ja estava encerrado (" ++ reason ++ ")"], [])

/-- C4: `stop_backend` with an empty slot logs the already-stopped
message, issues no kill and (having no error channel) returns normally;
after any call the slot is empty, so a second call in a row is exactly
the empty-slot case: it issues no kill, leaves the slot empty and only
logs — the same observable effect on slot and worker as one call. -/
theorem stop_backend_idempotent_spec (s : Option CommandChild) (killOk killOk2 : Bool)
    (reason reason2 : String) :
    stop_backend none killOk reason =
      (none, ["backend ja estava encerrado (" ++ reason ++ ")"], []) ∧
    (stop_backend s killOk reason).1 = none ∧
    stop_backend (stop_backend s killOk reason).1 killOk2 reason2 =
      (none, ["backend ja estava encerrado (" ++ reason2 ++ ")"], []) ∧
    (stop_backend (stop_backend s killOk reason).1 killOk2 reason2).2.2 = [] := by
  cases s <;> exact ⟨rfl, rfl, rfl, rfl⟩

/-! ### RestartCoordinator: `restart_app` (main.rs lines 198-214)

The command logs, stops the backend, waits up to 3 s for port release;
if that wait failed it logs, force-kills the known image names and
sleeps 300 ms; it then waits up to 3 s again — unconditionally — and
logs a warning if the port is still busy; finally it calls
`app.restart()` and returns `Ok(())`.  The embedding records the
sequence of externally observable actions, driven by the boolean
outcomes `w1`, `w2` of the two port-release waits. -/

/-- Observable actions of the restart command, in order. -/
inductive RAct where
  | logInvoked
  | stopBackendCall (reason : String)
  | waitPortRelease (timeoutMs : Nat)
  | logPortBusyAfterStop
  | forceKillBackend
  | sleepMs (ms : Nat)
  | logPortBusyBeforeRestart
  | appRestart
deriving DecidableEq

/-- `restart_app`, parameterized by the outcomes of its two
`wait_backend_port_release(3s)` calls: the action trace and the
command's returned value. -/
def restart_app (w1 w2 : Bool) : List RAct × Except String Unit :=
  ([RAct.logInvoked, RAct.stopBackendCall "restart_app_command", RAct.waitPortRelease 3000] ++
    (if w1 then [] else [RAct.logPortBusyAfterStop, RAct.forceKillBackend, RAct.sleepMs 300]) ++
    [RAct.waitPortRelease 3000] ++
    (if w2 then [] else [RAct.logPortBusyBeforeRestart]) ++
    [RAct.appRestart],
   Except.ok ())

/-- Modelled from the claim as stated, for comparison with the code's
trace: stop, one wait; only if that wait fails: force-kill, brief sleep,
then a second wait; then restart regardless (warning if still
occupied). -/
def claimRestartTrace (w1 w2 : Bool) : List RAct :=
  [RAct.logInvoked, RAct.stopBackendCall "restart_app_command", RAct.waitPortRelease 3000] ++
    (if w1 then []
     else [RAct.logPortBusyAfterStop, RAct.forceKillBackend, RAct.sleepMs 300,
           RAct.waitPortRelease 3000] ++
       (if w2 then [] else [RAct.logPortBusyBeforeRestart])) ++
    [RAct.appRestart]

/-- C3 counterexample.  The claim places the second 3-second wait inside
the only-if-the-first-wait-failed branch.  In the code the second
`wait_backend_port_release(3s)` call is a separate unconditional
statement: when the first wait succeeds (`w1 = true`) the code still
performs a second wait, so its trace contains two port-release waits
where the claimed sequence contains one. -/
theorem restart_app_second_wait_cex :
    (restart_app true true).1 ≠ claimRestartTrace true true ∧
    ((restart_app true true).1.count (RAct.waitPortRelease 3000) = 2 ∧
      (claimRestartTrace true true).count (RAct.waitPortRelease 3000) = 1) := by
  refine ⟨?_, by decide, by decide⟩
  decide

/-- C3 (amended): `restart_app` logs the invocation, calls
`stop_backend` with reason `restart_app_command`, then waits up to 3 s
for the port; only if that wait fails does it log, force-kill the known
worker images and sleep 300 ms; it then performs the second 3-second
wait unconditionally; it logs the still-occupied warning exactly when
the second wait fails; and it always ends by triggering the application
restart.  In the escalation case the force-kill and sleep sit between
the two waits. -/
theorem restart_app_sequence_spec (w1 w2 : Bool) :
    (restart_app w1 w2).1.get? 0 = some RAct.logInvoked ∧
    (restart_app w1 w2).1.get? 1 = some (RAct.stopBackendCall "restart_app_command") ∧
    (restart_app w1 w2).1.get? 2 = some (RAct.waitPortRelease 3000) ∧
    (restart_app w1 w2).1.count (RAct.waitPortRelease 3000) = 2 ∧
    (restart_app w1 w2).1.count RAct.forceKillBackend = (if w1 then 0 else 1) ∧
    (restart_app w1 w2).1.count (RAct.sleepMs 300) = (if w1 then 0 else 1) ∧
    (restart_app w1 w2).1.count RAct.logPortBusyBeforeRestart = (if w2 then 0 else 1) ∧
    (restart_app w1 w2).1.getLast? = some RAct.appRestart ∧
    (restart_app false w2).1.get? 3 = some RAct.logPortBusyAfterStop ∧
    (restart_app false w2).1.get? 4 = some RAct.forceKillBackend ∧
    (restart_app false w2).1.get? 5 = some (RAct.sleepMs 300) ∧
    (restart_app false w2).1.get? 6 = some (RAct.waitPortRelease 3000) := by
  cases w1 <;> cases w2 <;> decide

/-- C9: `restart_app` returns `Ok(())` on every execution path — both
port waits failing, or succeeding, never reaches the `Err` branch its
`Result<(), String>` signature would allow. -/
theorem restart_app_always_ok (w1 w2 : Bool) :
    (restart_app w1 w2).2 = Except.ok () := by
  rfl

/-! ### WindowGate: the `setup` closure (main.rs lines 225-280)

The setup hook logs, logs the startup paths, fetches the `main` window
(returning `Ok` early, with a log line, if absent), hides it
(`window.hide()?` — a hide failure propagates as the setup error),
spawns the backend (storing the handle and starting event forwarding on
success, logging on failure — not fatal), then spawns the async task
that awaits `wait_for_health(…, 20s)`, logs if it failed, and shows the
window unconditionally.  The embedding sequentializes that async task
after the synchronous body (the task is the only remaining step) and
records the observable actions; the second component is `false` exactly
when setup returned an error. -/

/-- Observable actions of the setup sequence, in order. -/
inductive SAct where
  | logSetupStart
  | logStartupPathsAct
  | logWindowMissing
  | windowHide
  | spawnAttempt
  | logBackendStarted
  | storeHandle
  | forwardEvents
  | logSpawnFailed
  | healthProbe (ok : Bool)
  | logHealthFailed
  | windowShow
deriving DecidableEq, BEq

/-- The setup sequence, parameterized by whether the `main` window was
found, whether `hide()` succeeded, whether `spawn_backend` succeeded,
and the health-probe outcome. -/
def setup (windowFound hideOk spawnOk healthOk : Bool) : List SAct × Bool :=
  if !windowFound then
    ([SAct.logSetupStart, SAct.logStartupPathsAct, SAct.logWindowMissing], true)
  else if !hideOk then
    ([SAct.logSetupStart, SAct.logStartupPathsAct, SAct.windowHide], false)
  else
    ([SAct.logSetupStart, SAct.logStartupPathsAct, SAct.windowHide, SAct.spawnAttempt] ++
      (if spawnOk then [SAct.logBackendStarted, SAct.storeHandle, SAct.forwardEvents]
       else [SAct.logSpawnFailed]) ++
      [SAct.healthProbe healthOk] ++
      (if healthOk then [] else [SAct.logHealthFailed]) ++
      [SAct.windowShow],
     true)

/-- C7: in the startup sequence (window present, hide succeeded) the
window is hidden exactly once, before the spawn attempt — the first
worker interaction; the health probe runs after the spawn and before the
show; and the window is shown exactly once, as the last action,
regardless of the probe outcome and regardless of whether the spawn
succeeded or failed (a failed spawn is non-fatal: setup still returns
success and still shows the window). -/
theorem setup_window_gate_spec (spawnOk healthOk : Bool) :
    (setup true true spawnOk healthOk).2 = true ∧
    (setup true true spawnOk healthOk).1.getLast? = some SAct.windowShow ∧
    (setup true true spawnOk healthOk).1.count SAct.windowShow = 1 ∧
    (setup true true spawnOk healthOk).1.count SAct.windowHide = 1 ∧
    (setup true true spawnOk healthOk).1.count SAct.spawnAttempt = 1 ∧
    (setup true true spawnOk healthOk).1.count (SAct.healthProbe healthOk) = 1 ∧
    (setup true true spawnOk healthOk).1.indexOf SAct.windowHide <
      (setup true true spawnOk healthOk).1.indexOf SAct.spawnAttempt ∧
    (setup true true spawnOk healthOk).1.indexOf SAct.spawnAttempt <
      (setup true true spawnOk healthOk).1.indexOf (SAct.healthProbe healthOk) ∧
    (setup true true spawnOk healthOk).1.indexOf (SAct.healthProbe healthOk) <
      (setup true true spawnOk healthOk).1.indexOf SAct.windowShow := by
  cases spawnOk <;> cases healthOk <;> decide

/-! ### ProcessSupervisor: `spawn_backend` environment (main.rs lines 108-139)

`spawn_backend` builds the worker environment: `PORT` is the constant
`"8000"`, `APP_ENV` is `"dev"` under `cfg!(debug_assertions)` and
`"prod"` otherwise, `PYTHONUTF8=1` and `PYTHONIOENCODING=utf-8` force
UTF-8 on the worker's standard streams, and `CHRONOS_APP_DIR` is copied
from the supervisor's own environment unchanged iff it is present and
its `trim()` is non-empty.  The `HashMap` is embedded as an association
list (the four fixed insertions, then the conditional one; all five
keys are distinct). -/

/-- Rust `char::is_whitespace`: the Unicode `White_Space` property. -/
def rustIsWhitespace (c : Char) : Bool :=
  let n := c.toNat
  (9 ≤ n && n ≤ 13) || n == 32 || n == 133 || n == 160 || n == 5760 ||
    (8192 ≤ n && n ≤ 8202) || n == 8232 || n == 8233 || n == 8239 || n == 8287 || n == 12288

/-- Rust `str::trim`: strip `White_Space` characters from both ends. -/
def rustTrim (s : String) : String :=
  String.mk (((s.data.dropWhile rustIsWhitespace).reverse.dropWhile rustIsWhitespace).reverse)

/-- The environment map passed to the sidecar by `spawn_backend`,
parameterized by the build flavor (`cfg!(debug_assertions)`) and the
supervisor's own `CHRONOS_APP_DIR` variable. -/
def spawn_envs (debugAssertions : Bool) (chronosAppDir : Option String) :
    List (String × String) :=
  let app_env := if debugAssertions then "dev" else "prod"
  let base := [("PORT", "8000"), ("APP_ENV", app_env),
               ("PYTHONUTF8", "1"), ("PYTHONIOENCODING", "utf-8")]
  match chronosAppDir with
  | some v => if (rustTrim v).isEmpty then base else base ++ [("CHRONOS_APP_DIR", v)]
  | none => base

/-- C8: the worker environment consists of exactly `PORT="8000"`, the
execution-mode flag `APP_ENV` (`"dev"` in a debug build, `"prod"` in a
release build), the forced UTF-8 stream-encoding flags
`PYTHONUTF8="1"` and `PYTHONIOENCODING="utf-8"`, plus — if and only if
the supervisor's `CHRONOS_APP_DIR` is set and non-blank after trimming
whitespace — that variable forwarded unchanged; no other keys occur. -/
theorem spawn_envs_spec (debugAssertions : Bool) (chronosAppDir : Option String) :
    (spawn_envs debugAssertions chronosAppDir).lookup "PORT" = some "8000" ∧
    (spawn_envs debugAssertions chronosAppDir).lookup "APP_ENV" =
      some (if debugAssertions then "dev" else "prod") ∧
    (spawn_envs debugAssertions chronosAppDir).lookup "PYTHONUTF8" = some "1" ∧
    (spawn_envs debugAssertions chronosAppDir).lookup "PYTHONIOENCODING" = some "utf-8" ∧
    (spawn_envs debugAssertions chronosAppDir).lookup "CHRONOS_APP_DIR" =
      (match chronosAppDir with
       | some v => if (rustTrim v).isEmpty then none else some v
       | none => none) ∧
    (spawn_envs debugAssertions chronosAppDir).map Prod.fst =
      ["PORT", "APP_ENV", "PYTHONUTF8", "PYTHONIOENCODING"] ++
        (match chronosAppDir with
         | some v => if (rustTrim v).isEmpty then [] else ["CHRONOS_APP_DIR"]
         | none => []) := by
  cases chronosAppDir with
  | none => cases debugAssertions <;> exact ⟨rfl, rfl, rfl, rfl, rfl, rfl⟩
  | some v =>
    cases hv : (rustTrim v).isEmpty <;> cases debugAssertions <;>
      simp [spawn_envs, hv, List.lookup]

/-! ### Executable resolution: `log_startup_paths` and `spawn_backend`
(main.rs lines 73-106 and 108-139)

`log_startup_paths` builds an ordered candidate list — resource dir
(bare name, triple-qualified name, and both under `bin/`), app-data
dir, and the current executable's dir (bare and triple each) — and logs
one `exists=`/`path=` line per candidate.  `spawn_backend` launches the
worker with `TauriCommand::new_sidecar(SIDECAR_NAME)`: the framework's
sidecar mechanism with the fixed name, taking no input from the probed
candidates.  The filesystem is abstracted as `ex : String → Bool`
(`Path::exists`); path joining as `++ "/" ++`. -/

/-- `SIDECAR_NAME` constant of the source. -/
def SIDECAR_NAME : String := "estoque_backend"

/-- The ordered candidate list of `log_startup_paths` (label, path). -/
def candidates (resource_dir app_data_dir exe_dir : Option String) :
    List (String × String) :=
  let base_exe := SIDECAR_NAME ++ ".exe"
  let triple_exe := SIDECAR_NAME ++ "-x86_64-pc-windows-msvc.exe"
  (match resource_dir with
   | some dir =>
     [("resource_dir/estoque_backend.exe", dir ++ "/" ++ base_exe),
      ("resource_dir/estoque_backend-x86_64-pc-windows-msvc.exe", dir ++ "/" ++ triple_exe),
      ("resource_dir/bin/estoque_backend.exe", dir ++ "/bin/" ++ base_exe),
      ("resource_dir/bin/estoque_backend-x86_64-pc-windows-msvc.exe",
        dir ++ "/bin/" ++ triple_exe)]
   | none => []) ++
  (match app_data_dir with
   | some dir =>
     [("app_data_dir/estoque_backend.exe", dir ++ "/" ++ base_exe),
      ("app_data_dir/estoque_backend-x86_64-pc-windows-msvc.exe", dir ++ "/" ++ triple_exe)]
   | none => []) ++
  (match exe_dir with
   | some dir =>
     [("exe_dir/estoque_backend.exe", dir ++ "/" ++ base_exe),
      ("exe_dir/estoque_backend-x86_64-pc-windows-msvc.exe", dir ++ "/" ++ triple_exe)]
   | none => [])

/-- The per-candidate diagnostic lines of `log_startup_paths`' final
loop. -/
def startup_log_lines (ex : String → Bool) : List (String × String) → List String
  | [] => []
  | (label, p) :: rest =>
      (label ++ " exists=" ++ (if ex p then "true" else "false") ++ " path=" ++ p) ::
        startup_log_lines ex rest

/-- First candidate whose path exists, in list order. -/
def firstExisting (ex : String → Bool) : List (String × String) → Option String
  | [] => none
  | (_, p) :: rest => if ex p then some p else firstExisting ex rest

/-- What `spawn_backend` hands to the process launcher: the constant
sidecar name given to `TauriCommand::new_sidecar`, for any state of the
probed filesystem. -/
def spawn_launch_target (_ex : String → Bool) : String := SIDECAR_NAME

/-- Modelled from the claim as stated: if `spawn()` launched the first
existing match of the probed candidate list, then its launch target
would have to depend on the probe — two filesystem states with
different first existing matches would give different launches. -/
def spawn_resolves_by_probing (rd ad ed : Option String) : Prop :=
  ∀ ex ex2 : String → Bool,
    firstExisting ex (candidates rd ad ed) ≠ firstExisting ex2 (candidates rd ad ed) →
    spawn_launch_target ex ≠ spawn_launch_target ex2

/-- C2 counterexample.  The candidate probing in `log_startup_paths` is
diagnostic only: `spawn_backend` launches via
`new_sidecar("estoque_backend")` whatever the probe found.  With all
three directories present, a filesystem where only the resource-dir
candidate exists and one where only the exe-dir candidate exists give
different first existing matches, yet the launch target is the same
constant — so `spawn()` does not resolve the executable by probing the
candidate list. -/
theorem spawn_ignores_probe_cex :
    ¬ spawn_resolves_by_probing (some "/res") (some "/data") (some "/exe") := by
  intro h
  have hne : firstExisting (fun p => p == "/res/estoque_backend.exe")
        (candidates (some "/res") (some "/data") (some "/exe")) ≠
      firstExisting (fun p => p == "/exe/estoque_backend.exe")
        (candidates (some "/res") (some "/data") (some "/exe")) := by
    decide
  exact h (fun p => p == "/res/estoque_backend.exe")
    (fun p => p == "/exe/estoque_backend.exe") hne rfl

/-- C2 (amended): `log_startup_paths` probes a fixed ordered candidate
list — resource dir (bare, triple, `bin/` bare, `bin/` triple), then
app-data dir (bare, triple), then the executable's dir (bare, triple) —
and logs one existence line per candidate, in that order, for
diagnostics; `spawn_backend` launches the worker through the
framework's sidecar mechanism under the fixed name `estoque_backend`,
independent of the probed candidates. -/
theorem startup_candidates_spec (r a e : String) (ex : String → Bool) :
    candidates (some r) (some a) (some e) =
      [("resource_dir/estoque_backend.exe", r ++ "/" ++ "estoque_backend.exe"),
       ("resource_dir/estoque_backend-x86_64-pc-windows-msvc.exe",
         r ++ "/" ++ "estoque_backend-x86_64-pc-windows-msvc.exe"),
       ("resource_dir/bin/estoque_backend.exe", r ++ "/bin/" ++ "estoque_backend.exe"),
       ("resource_dir/bin/estoque_backend-x86_64-pc-windows-msvc.exe",
         r ++ "/bin/" ++ "estoque_backend-x86_64-pc-windows-msvc.exe"),
       ("app_data_dir/estoque_backend.exe", a ++ "/" ++ "estoque_backend.exe"),
       ("app_data_dir/estoque_backend-x86_64-pc-windows-msvc.exe",
         a ++ "/" ++ "estoque_backend-x86_64-pc-windows-msvc.exe"),
       ("exe_dir/estoque_backend.exe", e ++ "/" ++ "estoque_backend.exe"),
       ("exe_dir/estoque_backend-x86_64-pc-windows-msvc.exe",
         e ++ "/" ++ "estoque_backend-x86_64-pc-windows-msvc.exe")] ∧
    startup_log_lines ex (candidates (some r) (some a) (some e)) =
      (candidates (some r) (some a) (some e)).map
        (fun c => c.1 ++ " exists=" ++ (if ex c.2 then "true" else "false") ++ " path=" ++ c.2) ∧
    spawn_launch_target ex = SIDECAR_NAME := by
  refine ⟨rfl, ?_, rfl⟩
  simp only [candidates, startup_log_lines, List.map]

/-! ### Logger: `log_path` and `log_line` (main.rs lines 25-46)

`log_path` returns `%LOCALAPPDATA%/ChronosInventory/logs/tauri.log`
when `LOCALAPPDATA` is set, else the temp-dir fallback
`<temp>/chronos_inventory_tauri.log`.  `log_line` appends the line to
`log_path()` and to the temp-dir fallback, best-effort each.  The
environment is abstracted as the optional `LOCALAPPDATA` value and the
temp directory. -/

/-- `log_path()`. -/
def log_path (localAppData : Option String) (tempDir : String) : String :=
  match localAppData with
  | some base => base ++ "/ChronosInventory/logs/tauri.log"
  | none => tempDir ++ "/chronos_inventory_tauri.log"

/-- The two destination paths `log_line` iterates over. -/
def log_line_paths (localAppData : Option String) (tempDir : String) : List String :=
  [log_path localAppData tempDir, tempDir ++ "/chronos_inventory_tauri.log"]

/-- The append operations performed by `log_line(message)`: one
`(path, message)` append per destination, in order. -/
def log_line_writes (localAppData : Option String) (tempDir : String) (message : String) :
    List (String × String) :=
  (log_line_paths localAppData tempDir).map (fun p => (p, message))

/-- C10: with `LOCALAPPDATA` unset, the primary path computed by
`log_path` is exactly the temp-directory fallback path, so `log_line`
appends the same message twice to that single file rather than writing
to two distinct destinations. -/
theorem log_line_duplicate_spec (tempDir message : String) :
    log_path none tempDir = tempDir ++ "/chronos_inventory_tauri.log" ∧
    log_line_paths none tempDir =
      [tempDir ++ "/chronos_inventory_tauri.log", tempDir ++ "/chronos_inventory_tauri.log"] ∧
    (log_line_paths none tempDir).get? 0 = (log_line_paths none tempDir).get? 1 ∧
    log_line_writes none tempDir message =
      [(tempDir ++ "/chronos_inventory_tauri.log", message),
       (tempDir ++ "/chronos_inventory_tauri.log", message)] := by
  exact ⟨rfl, rfl, rfl, rfl⟩

end ChronosInventory
